import Mathlib

/-!
Shallow embedding of the NEXAIDE agent-bridge services:
`CodexAgentService` (JSON-RPC client for the `codex app-server` backend) and
`TraeAgentService` (MCP client with a CLI-subprocess fallback).  JavaScript
values flowing through the untyped message paths are modelled by `JsonValue`;
JavaScript truthiness and field access are made explicit.
-/

/-- A JSON document / JavaScript value as it appears on the wire.
Numbers are modelled as integers (all numbers appearing in the protocol
paths under study are request ids and counters). -/
inductive JsonValue where
  | null : JsonValue
  | bool (b : Bool) : JsonValue
  | num (n : Int) : JsonValue
  | str (s : String) : JsonValue
  | arr (elems : List JsonValue) : JsonValue
  | obj (fields : List (String × JsonValue)) : JsonValue
deriving Repr

namespace JsonValue

/-- JavaScript property access `v.k` on a parsed JSON value: `none` models
`undefined` (absent field, or access on a non-object). -/
def getField : JsonValue → String → Option JsonValue
  | .obj fields, k => (fields.find? (fun f => f.1 == k)).map (·.2)
  | _, _ => none

/-- JavaScript truthiness of a JSON value. -/
def truthy : JsonValue → Bool
  | .null => false
  | .bool b => b
  | .num n => n != 0
  | .str s => s != ""
  | .arr _ => true
  | .obj _ => true

/-- JavaScript truthiness of a possibly-`undefined` value. -/
def truthyOpt : Option JsonValue → Bool
  | none => false
  | some v => v.truthy

/-- JavaScript `String(v)` coercion (for the values reachable in the
trace-parsing path: primitives; arrays join their elements with `,`,
plain objects print as `[object Object]`). -/
def jsToString : JsonValue → String
  | .null => "null"
  | .bool true => "true"
  | .bool false => "false"
  | .num n => toString n
  | .str s => s
  | .arr elems => String.intercalate "," (elems.attach.map (fun e => jsToString e.1))
  | .obj _ => "[object Object]"
decreasing_by
  have := List.sizeOf_lt_of_mem e.2
  simp only [JsonValue.arr.sizeOf_spec]
  omega

end JsonValue

/-! ## CodexAgentService — JSON-RPC client state (src/unnamed/part_000) -/

/-- Association-list counterpart of a JS `Map` keyed by strings:
lookup of the stored value. -/
def mapGet {α : Type} (m : List (String × α)) (k : String) : Option α :=
  (m.find? (fun p => p.1 == k)).map (·.2)

/-- JS `Map.set`: overwrite the value if the key is present (keeping its
position), otherwise append the new entry. -/
def mapSet {α : Type} (m : List (String × α)) (k : String) (v : α) : List (String × α) :=
  if (m.find? (fun p => p.1 == k)).isSome then
    m.map (fun p => if p.1 == k then (k, v) else p)
  else
    m ++ [(k, v)]

/-- JS `Map.delete`: remove the entry for a key. -/
def mapDelete {α : Type} (m : List (String × α)) (k : String) : List (String × α) :=
  m.filter (fun p => p.1 != k)

/-- How a `PendingPromise` from `pendingRequests` is settled. -/
inductive Settle where
  | resolved (value : JsonValue)
  | rejected (message : JsonValue)
deriving Repr

/-- The message-correlation state of `CodexAgentService`.  `pendingRequests`
and `pendingTurns` are JS `Map`s whose values are promise callbacks; the
embedding keeps their key sets (settlements are reported as effects).
Request ids are the numbers allocated by `requestSeq++`; turn ids are the
strings carried by the `turn/*` protocol messages. -/
structure CodexState where
  requestSeq : Int := 1
  pendingRequests : List Int := []
  pendingTurns : List String := []
  /-- buffered `turn/completed` results: turn id ↦ (text, rawTurn) -/
  bufferedTurnResults : List (String × String × JsonValue) := []
  currentTurnId : Option String := none
deriving Repr

/-- Observable effects of handling one inbound line: promise settlements,
messages written back to the process stdin, and emitted events. -/
structure Effects where
  /-- settlement of a `pendingRequests` entry (id, outcome) -/
  settled : Option (Int × Settle) := none
  /-- resolution of a `pendingTurns` waiter (turn id, text) -/
  turnSettled : Option (String × String) := none
  /-- messages written to the child process stdin -/
  writes : List JsonValue := []
  /-- `execApproval` events surfaced to the UI: (requestId, params) -/
  execApprovals : List (JsonValue × JsonValue) := []
  statusEvents : List JsonValue := []
  errorEvents : List String := []
  /-- `turnCompleted` events: (turn id, text) -/
  turnCompletedEvents : List (String × String) := []
deriving Repr

/-- Extract `x?.turn?.id` under the JS truthiness guard used at both ends
(`if (!turnId) ...`).  Turn ids are strings on this protocol (both
`sendMessage` and `processTurnCompleted` type them `string`); the empty
string is falsy and hence treated as absent, exactly as in the source. -/
def turnIdOf (v : Option JsonValue) : Option String :=
  match v.bind (fun x => x.getField "turn") |>.bind (fun t => t.getField "id") with
  | some (.str s) => if s == "" then none else some s
  | _ => none

/-- An item counts as an agent message when `item?.type === 'agent_message'`
or `=== 'agentMessage'`. -/
def isAgentMessageItem (item : JsonValue) : Bool :=
  match item.getField "type" with
  | some (.str t) => t == "agent_message" || t == "agentMessage"
  | _ => false

/-- `item.text` when `typeof item.text === 'string'`. -/
def itemTextString (item : JsonValue) : Option String :=
  match item.getField "text" with
  | some (.str t) => some t
  | _ => none

/-- The text delivered for a completed turn: the last agent-authored message
in the item list, defaulting to `'(no response)'`. -/
def turnText (items : List JsonValue) : String :=
  let agentMessages := items.filterMap (fun item =>
    if isAgentMessageItem item then itemTextString item else none)
  agentMessages.getLast?.getD "(no response)"

/-- `processTurnCompleted`: resolve the registered waiter for the turn id if
one exists (deleting it), otherwise buffer the result text under the id;
always emit a `turnCompleted` event.  `notification.turn?.items ?? []`
defaults a missing item list to `[]`. -/
def processTurnCompleted (s : CodexState) (notification : Option JsonValue) :
    CodexState × Effects :=
  match turnIdOf notification with
  | none => (s, {})
  | some turnId =>
    let rawTurn := notification.bind (fun n => n.getField "turn")
    let items := match rawTurn.bind (fun t => t.getField "items") with
      | some (.arr xs) => xs
      | _ => []
    let text := turnText items
    if s.pendingTurns.contains turnId then
      ({ s with pendingTurns := s.pendingTurns.erase turnId },
       { turnSettled := some (turnId, text), turnCompletedEvents := [(turnId, text)] })
    else
      ({ s with bufferedTurnResults :=
           mapSet s.bufferedTurnResults turnId (text, rawTurn.getD .null) },
       { turnCompletedEvents := [(turnId, text)] })

/-- The closed decision set for approvals. -/
inductive CodexApprovalDecision where
  | approved
  | approved_for_session
  | denied
  | abort
deriving Repr, DecidableEq

/-- The wire string chosen by the nested conditional in
`respondToExecApproval` (anything other than the three explicit cases maps
to `'approved'`). -/
def decisionString : CodexApprovalDecision → String
  | .approved_for_session => "approved_for_session"
  | .denied => "denied"
  | .abort => "abort"
  | .approved => "approved"

/-- `respondToExecApproval(requestId, decision)`: the correlated
`{id, result: {decision}}` reply written back to the process. -/
def respondToExecApproval (requestId : JsonValue) (decision : CodexApprovalDecision) :
    JsonValue :=
  .obj [("id", requestId),
        ("result", .obj [("decision", .str (decisionString decision))])]

/-- `handleResponse`: look up the pending entry for `message.id`; missing
entry means no-op, otherwise delete it and resolve it with `message.result`.
`pendingRequests` is keyed by the numbers `requestSeq++` allocates, so a
non-numeric id never matches (`Map.get` uses SameValueZero). -/
def handleResponse (s : CodexState) (message : JsonValue) : CodexState × Effects :=
  match message.getField "id" with
  | some (.num n) =>
    if s.pendingRequests.contains n then
      ({ s with pendingRequests := s.pendingRequests.erase n },
       { settled := some (n, .resolved ((message.getField "result").getD .null)) })
    else (s, {})
  | _ => (s, {})

/-- The error branch of `handleLine`: reject the pending entry for the id
with `error?.message || 'Codex request failed'`; missing entry is a no-op. -/
def handleErrorResponse (s : CodexState) (message : JsonValue) : CodexState × Effects :=
  match message.getField "id" with
  | some (.num n) =>
    if s.pendingRequests.contains n then
      let errMessage :=
        match (message.getField "error").bind (fun e => e.getField "message") with
        | some v => if v.truthy then v else .str "Codex request failed"
        | none => .str "Codex request failed"
      ({ s with pendingRequests := s.pendingRequests.erase n },
       { settled := some (n, .rejected errMessage) })
    else (s, {})
  | _ => (s, {})

/-- `handleServerRequest`: `execCommandApproval` is surfaced to the UI as an
`execApproval` event; `applyPatchApproval` and every other method are
auto-answered with `respondToExecApproval(id, 'approved')`. -/
def handleServerRequest (s : CodexState) (message : JsonValue) : CodexState × Effects :=
  let id := (message.getField "id").getD .null
  match message.getField "method" with
  | some (.str "execCommandApproval") =>
      (s, { execApprovals := [(id, (message.getField "params").getD .null)] })
  | some (.str "applyPatchApproval") =>
      (s, { writes := [respondToExecApproval id .approved] })
  | _ =>
      (s, { writes := [respondToExecApproval id .approved] })

/-- `handleNotification`: `turn/completed` feeds `processTurnCompleted`;
`turn/started` records the current turn id; the two delta notifications are
re-emitted as status events; everything else is dropped. -/
def handleNotification (s : CodexState) (message : JsonValue) : CodexState × Effects :=
  match message.getField "method" with
  | some (.str "turn/completed") =>
      processTurnCompleted s (message.getField "params")
  | some (.str "turn/started") =>
      ({ s with currentTurnId := turnIdOf (message.getField "params") }, {})
  | some (.str "item/commandExecution/outputDelta") =>
      (s, { statusEvents :=
              [((message.getField "params").bind (fun p => p.getField "delta")).getD (.str "")] })
  | some (.str "item/agentMessage/delta") =>
      (s, { statusEvents :=
              [((message.getField "params").bind (fun p => p.getField "delta")).getD (.str "")] })
  | _ => (s, {})

/-- One line read from the child process stdout: blank (skipped before
parsing), malformed JSON (JSON.parse threw), or a parsed message. -/
inductive InboundLine where
  | blank
  | malformed
  | message (v : JsonValue)

/-- `handleLine` dispatch, with the exact truthiness/presence tests of the
source: `method && typeof id !== 'undefined' && params` is a server request;
`method && !id` a notification; `id` present plus truthy `result` a
response; `id` present plus truthy `error` a rejection; anything else is
dropped. -/
def handleLine (s : CodexState) (line : InboundLine) : CodexState × Effects :=
  match line with
  | .blank => (s, {})
  | .malformed => (s, { errorEvents := ["Codex JSON parse error"] })
  | .message parsed =>
    let method := parsed.getField "method"
    let idPresent := (parsed.getField "id").isSome
    if JsonValue.truthyOpt method && idPresent &&
        JsonValue.truthyOpt (parsed.getField "params") then
      handleServerRequest s parsed
    else if JsonValue.truthyOpt method && !JsonValue.truthyOpt (parsed.getField "id") then
      handleNotification s parsed
    else if idPresent && JsonValue.truthyOpt (parsed.getField "result") then
      handleResponse s parsed
    else if idPresent && JsonValue.truthyOpt (parsed.getField "error") then
      handleErrorResponse s parsed
    else (s, {})

/-- `sendRequest`: allocate `id = requestSeq++`, register the pending entry,
and produce the outbound `{id, method, params}` payload. -/
def sendRequest (s : CodexState) (method : String) (params : JsonValue) :
    CodexState × Int × JsonValue :=
  let id := s.requestSeq
  ({ s with requestSeq := s.requestSeq + 1,
            pendingRequests := s.pendingRequests ++ [id] },
   id,
   .obj [("id", .num id), ("method", .str method), ("params", params)])

/-- The tail of `sendMessage` once the `turn/start` response has supplied
`turnId`: record it as current, then either consume a buffered result
(deleting the buffer entry and returning its text at once) or register a
waiter in `pendingTurns` (returning nothing yet). -/
def awaitTurn (s : CodexState) (turnId : String) : CodexState × Option String :=
  let s1 := { s with currentTurnId := some turnId }
  match mapGet s1.bufferedTurnResults turnId with
  | some buffered =>
      ({ s1 with bufferedTurnResults := mapDelete s1.bufferedTurnResults turnId },
       some buffered.1)
  | none =>
      ({ s1 with pendingTurns :=
           if s1.pendingTurns.contains turnId then s1.pendingTurns
           else s1.pendingTurns ++ [turnId] },
       none)

/-- Initialization-relevant state of `CodexAgentService`.  `initPromise`
embeds the `initializePromise` field: it records that a `startProcess()` is
in flight or finished and is never cleared.  The counters record how many
child processes were spawned and how many `initialize` requests were sent;
`startProcess` calls `spawn` exactly once (synchronously, inside the
promise executor) and sends exactly one `initialize` request when the spawn
promise resolves. -/
structure CodexInitState where
  disposed : Bool := false
  initPromise : Bool := false
  spawnCount : Nat := 0
  initRequests : Nat := 0
deriving Repr, DecidableEq

/-- The synchronous prefix of `ensureReady()` (up to its first `await`): a
disposed service does nothing; otherwise the in-flight promise is reused if
present and installed (spawning the process) if absent.  The presence check
and the assignment run in one synchronous block, so overlapping
`ensureReady()` calls interleave only at `await` points, i.e. exactly as
successive applications of this step. -/
def ensureReadyStep (s : CodexInitState) : CodexInitState :=
  if s.disposed then s
  else if s.initPromise then s
  else { s with initPromise := true,
                spawnCount := s.spawnCount + 1,
                initRequests := s.initRequests + 1 }

/-! ## TraeAgentService — output sanitization (src/unnamed/part_001)

`sanitizeOutput` applies four `String.replace` passes:
ANSI control sequences, rich-style bracket tags, box-drawing characters,
and `\r?\n → \n`.  Each JS `replace(/…/g, '')` is embedded as a left-to-right
scan that removes the leftmost-greedy match at each position (no pattern
here can match the empty string).  Matches are computed as consumed-character
counts; where the JS engine would backtrack, candidate counts are generated
in the engine's priority order and the first that lets the rest of the
pattern succeed wins. -/

/-- First character class of the ANSI pattern `[\u001B\u009B]`. -/
def isAnsiIntro (c : Char) : Bool :=
  c.toNat == 0x1B || c.toNat == 0x9B

/-- The class `[[()#;?]` of the ANSI pattern. -/
def isAnsiInter (c : Char) : Bool :=
  c == '[' || c == '(' || c == ')' || c == '#' || c == ';' || c == '?'

/-- The final class `[0-9A-ORZcf-nqry=><]` of the ANSI pattern. -/
def isAnsiFinal (c : Char) : Bool :=
  c.isDigit || ('A' ≤ c && c ≤ 'O') || c == 'R' || c == 'Z' || c == 'c' ||
    ('f' ≤ c && c ≤ 'n') || c == 'q' || c == 'r' || c == 'y' ||
    c == '=' || c == '>' || c == '<'

/-- `[n, n-1, …, 0]`: quantifier repetition counts in greedy priority order. -/
def downFrom (n : Nat) : List Nat :=
  (List.range (n + 1)).reverse

/-- Length of the leading digit run. -/
def countLeadingDigits (s : List Char) : Nat :=
  (s.takeWhile Char.isDigit).length

/-- Recursion core of `semiDigitStarCands`: every star iteration consumes at
least the `;`, so `fuel = s.length` bounds the recursion depth and makes it
structural (the `0`-fuel case is unreachable from `semiDigitStarCands`). -/
def semiDigitStarCandsGo : Nat → List Char → List Nat
  | fuel + 1, ';' :: r =>
    ((downFrom (min 4 (countLeadingDigits r))).flatMap
      (fun d => (semiDigitStarCandsGo fuel (r.drop d)).map (fun k => 1 + d + k))) ++ [0]
  | _, _ => [0]

/-- Consumed-count candidates of `(?:;[0-9]{0,4})*`, in backtracking
priority order: as many iterations as possible first, each iteration taking
as many digits as possible first, stopping the star last. -/
def semiDigitStarCands (s : List Char) : List Nat :=
  semiDigitStarCandsGo s.length s

/-- Consumed-count candidates of `(?:[0-9]{1,4}(?:;[0-9]{0,4})*)?`, in
backtracking priority order: group present with 4,3,2,1 digits first (each
followed by the star's candidates), group absent last. -/
def ansiGroupCands (s : List Char) : List Nat :=
  (((downFrom (min 4 (countLeadingDigits s))).filter (fun d => 1 ≤ d)).flatMap
    (fun d => (semiDigitStarCands (s.drop d)).map (fun k => d + k))) ++ [0]

/-- Finish the ANSI match: take the first candidate whose next character is
in the final class, consuming it as well. -/
def ansiFinish (s : List Char) : List Nat → Option Nat
  | [] => none
  | k :: rest =>
    match s.drop k with
    | c :: _ => if isAnsiFinal c then some (k + 1) else ansiFinish s rest
    | [] => ansiFinish s rest

/-- Leftmost-greedy match of the ANSI pattern right after its intro
character; returns the number of characters consumed after the intro.
`[[()#;?]*` never backtracks here: a given-back character of that class can
match neither a digit nor the final class, so the maximal run is the only
viable one. -/
def matchAnsiAfterIntro (s : List Char) : Option Nat :=
  let inter := (s.takeWhile isAnsiInter).length
  (ansiFinish (s.drop inter) (ansiGroupCands (s.drop inter))).map (fun k => inter + k)

/-- Recursion core of `ansiStrip`: each step consumes at least one
character, so `fuel = s.length` bounds the recursion and makes it
structural (the `0`-fuel case is unreachable from `ansiStrip`). -/
def ansiStripGo : Nat → List Char → List Char
  | _, [] => []
  | 0, s => s
  | fuel + 1, c :: rest =>
    if isAnsiIntro c then
      match matchAnsiAfterIntro rest with
      | some k => ansiStripGo fuel (rest.drop k)
      | none => c :: ansiStripGo fuel rest
    else c :: ansiStripGo fuel rest

/-- `replace(ansiRegex, '')`: the first sanitization pass. -/
def ansiStrip (s : List Char) : List Char :=
  ansiStripGo s.length s

/-- JS `\w`: ASCII letters, digits and underscore. -/
def isWordChar (c : Char) : Bool :=
  c.isAlpha || c.isDigit || c == '_'

/-- The class `[\w-]` of the tag pattern. -/
def isWordDash (c : Char) : Bool :=
  isWordChar c || c == '-'

/-- Match of `\[(?:\/?)[a-zA-Z][\w-]*(?:=[^\]]+)?\]` right after its opening
bracket; returns the characters consumed after the bracket.  No real
backtracking arises: `/` cannot double as the required letter, a given-back
`[\w-]` character can match neither `=` nor `]`, and a given-back `[^\]]`
character cannot match `]`. -/
def matchTagAfterBracket (s : List Char) : Option Nat :=
  let (slash, s1) : Nat × List Char :=
    match s with
    | '/' :: r => (1, r)
    | _ => (0, s)
  match s1 with
  | c :: r =>
    if c.isAlpha then
      let w := (r.takeWhile isWordDash).length
      match r.drop w with
      | '=' :: r3 =>
        let v := (r3.takeWhile (fun ch => ch != ']')).length
        if v == 0 then none
        else
          match r3.drop v with
          | ']' :: _ => some (slash + 1 + w + 1 + v + 1)
          | _ => none
      | ']' :: _ => some (slash + 1 + w + 1)
      | _ => none
    else none
  | [] => none

/-- Recursion core of `tagStrip`, fuelled like `ansiStripGo`. -/
def tagStripGo : Nat → List Char → List Char
  | _, [] => []
  | 0, s => s
  | fuel + 1, c :: rest =>
    if c == '[' then
      match matchTagAfterBracket rest with
      | some k => tagStripGo fuel (rest.drop k)
      | none => c :: tagStripGo fuel rest
    else c :: tagStripGo fuel rest

/-- `replace(/\[(?:\/?)[a-zA-Z][\w-]*(?:=[^\]]+)?\]/g, '')`: the second
sanitization pass (rich-style tags such as `[bold]`, `[/bold]`, `[cyan]`). -/
def tagStrip (s : List Char) : List Char :=
  tagStripGo s.length s

/-- Box-drawing characters `[─-╿]`. -/
def isBoxDrawing (c : Char) : Bool :=
  0x2500 ≤ c.toNat && c.toNat ≤ 0x257F

/-- `replace(/[─-╿]/g, '')`: the third sanitization pass. -/
def boxStrip (s : List Char) : List Char :=
  s.filter (fun c => !isBoxDrawing c)

/-- `replace(/\r?\n/g, '\n')`: the final pass normalizes CRLF to LF (an LF
alone is rewritten to itself; a CR not followed by LF is left in place). -/
def normalizeNewlines : List Char → List Char
  | '\r' :: '\n' :: rest => '\n' :: normalizeNewlines rest
  | c :: rest => c :: normalizeNewlines rest
  | [] => []

/-- `TraeAgentService.sanitizeOutput`. -/
def sanitizeOutput (text : String) : String :=
  ⟨normalizeNewlines (boxStrip (tagStrip (ansiStrip text.data)))⟩

/-! ## TraeAgentService — trace parsing and CLI fallback (src/unnamed/part_001) -/

/-- One entry of `toolCalls` in a `TraeAgentResponse`.  The TS interface
types `name`/`result` as strings, but the trajectory parser stores whatever
JSON values the trace carries, so the fields keep the `JsonValue` type. -/
structure ToolCall where
  name : JsonValue
  parameters : JsonValue
  result : Option JsonValue
deriving Repr

/-- JS `\s` (the whitespace class of the stdout tool-call heuristic). -/
def isJsSpace (c : Char) : Bool :=
  let n := c.toNat
  n == 0x20 || (0x9 ≤ n && n ≤ 0xD) || n == 0xA0 || n == 0x1680 ||
    (0x2000 ≤ n && n ≤ 0x200A) || n == 0x2028 || n == 0x2029 ||
    n == 0x202F || n == 0x205F || n == 0x3000 || n == 0xFEFF

/-- Match of `/Tool: (\w+)\s*\(([^)]+)\)/` at the head of `s`, yielding the
two captures and the total number of characters consumed.  `\w+`, `\s*`
and `[^)]+` take their maximal runs; no backtracking can help because a
given-back character of each class cannot match the next pattern element. -/
def matchToolCall (s : List Char) : Option (String × String × Nat) :=
  match s with
  | 'T' :: 'o' :: 'o' :: 'l' :: ':' :: ' ' :: r =>
    let w := r.takeWhile isWordChar
    if w.isEmpty then none
    else
      let r1 := r.drop w.length
      let sp := (r1.takeWhile isJsSpace).length
      match r1.drop sp with
      | '(' :: r2 =>
        let v := r2.takeWhile (fun c => c != ')')
        if v.isEmpty then none
        else
          match r2.drop v.length with
          | ')' :: _ => some (⟨w⟩, ⟨v⟩, 6 + w.length + sp + 1 + v.length + 1)
          | _ => none
      | _ => none
  | _ => none

/-- The scan driving `parseToolCalls`: collect every match of the heuristic
pattern, left to right, resuming after each match (fuelled like
`ansiStripGo`; the `0`-fuel case is unreachable from `parseToolCalls`). -/
def parseToolCallsGo : Nat → List Char → List ToolCall
  | _, [] => []
  | 0, _ => []
  | fuel + 1, c :: rest =>
    match matchToolCall (c :: rest) with
    | some (name, params, k) =>
      { name := .str name, parameters := .str params, result := some (.str "Executed") }
        :: parseToolCallsGo fuel (rest.drop (k - 1))
    | none => parseToolCallsGo fuel rest

/-- `TraeAgentService.parseToolCalls`: the stdout heuristic used when no
trajectory file is available; each match reports result `'Executed'`. -/
def parseToolCalls (output : String) : List ToolCall :=
  parseToolCallsGo output.data.length output.data

/-- The record `parseTrajectoryFile` extracts from a trajectory document:
`success` is `data?.success` as found (absent ↦ `none`); `final_result` is
`data?.final_result ?? undefined` (absent or `null` ↦ `none`). -/
structure TraceRecord where
  success : Option JsonValue
  final_result : Option JsonValue
  toolCalls : List ToolCall
deriving Repr

/-- `Array.isArray` guard. -/
def asArray (v : Option JsonValue) : Option (List JsonValue) :=
  match v with
  | some (.arr xs) => some xs
  | _ => none

/-- `collectResults`: fold `tool_results` entries into the
`call_id ↦ result` map, skipping entries whose `call_id` is `undefined` or
`null`; keys go through `String(cid)` and the stored value is `tr?.result`
(possibly `undefined`). -/
def collectResults (m : List (String × Option JsonValue)) (arr : List JsonValue) :
    List (String × Option JsonValue) :=
  arr.foldl
    (fun m tr =>
      match tr.getField "call_id" with
      | some .null => m
      | none => m
      | some cid => mapSet m cid.jsToString (tr.getField "result"))
    m

/-- `collectCalls`: append a `ToolCall` for every `tool_calls` entry.  The
key is `String(tc.call_id)` only when `tc?.call_id` is truthy; the name
defaults to `'unknown_tool'` and the parameters to `{}` through the
`??` chains; the result is looked up in the collected map. -/
def collectCalls (resultsById : List (String × Option JsonValue))
    (acc : List ToolCall) (arr : List JsonValue) : List ToolCall :=
  arr.foldl
    (fun acc tc =>
      let cid : Option String :=
        match tc.getField "call_id" with
        | some v => if v.truthy then some v.jsToString else none
        | none => none
      let name : JsonValue :=
        match tc.getField "name" with
        | some .null => .str "unknown_tool"
        | none => .str "unknown_tool"
        | some v => v
      let params : JsonValue :=
        match tc.getField "arguments" with
        | some .null | none =>
          (match tc.getField "parameters" with
           | some .null | none => .obj []
           | some v => v)
        | some v => v
      let result : Option JsonValue :=
        match cid with
        | some k => (mapGet resultsById k).join
        | none => none
      acc ++ [{ name := name, parameters := params, result := result }])
    acc

/-- `TraeAgentService.parseTrajectoryFile`, with the filesystem abstracted
into the argument: `none` when `fs.existsSync(filePath)` is false,
`some (.error e)` when `readFileSync`/`JSON.parse` threw (the surrounding
try/catch turns this into `null`), `some (.ok data)` the parsed document.
Results are collected from the top-level `tool_results` and from
`agent_steps[i].tool_results`, then calls from the top-level `tool_calls`
and from `agent_steps[i].tool_calls`. -/
def parseTrajectoryFile (file : Option (Except String JsonValue)) : Option TraceRecord :=
  match file with
  | none => none
  | some (.error _) => none
  | some (.ok data) =>
    let success := data.getField "success"
    let final_result :=
      match data.getField "final_result" with
      | some .null => none
      | v => v
    let steps :=
      match asArray (data.getField "agent_steps") with
      | some xs => xs
      | none => []
    let m0 :=
      match asArray (data.getField "tool_results") with
      | some arr => collectResults [] arr
      | none => []
    let resultsById :=
      steps.foldl
        (fun m step =>
          match asArray (step.getField "tool_results") with
          | some arr => collectResults m arr
          | none => m)
        m0
    let c0 :=
      match asArray (data.getField "tool_calls") with
      | some arr => collectCalls resultsById [] arr
      | none => []
    let toolCalls :=
      steps.foldl
        (fun acc step =>
          match asArray (step.getField "tool_calls") with
          | some arr => collectCalls resultsById acc arr
          | none => acc)
        c0
    some { success := success, final_result := final_result, toolCalls := toolCalls }

/-- The uniform result type of `TraeAgentService` (TS `TraeAgentResponse`).
`content` keeps the `JsonValue` type because the trace's `final_result`
flows into it unchanged. -/
structure TraeAgentResponse where
  success : Bool
  content : JsonValue
  error : Option String := none
  toolCalls : Option (List ToolCall) := none
  mode : Option String := none
deriving Repr

/-- `${code}` for a Node `close` code (`null` when killed by a signal). -/
def jsCodeString : Option Int → String
  | some n => toString n
  | none => "null"

/-- The body of the CLI `close` handler once `isResolved` was still false:
trace-first content and tool calls, `success = code === 0 && traj?.success
!== false`, and the zero/non-zero exit branches (the non-zero branch
carries no `toolCalls` and reports `errorOutput` or a default message). -/
def closeHandler (code : Option Int) (traj : Option TraceRecord)
    (output errorOutput : String) : TraeAgentResponse :=
  let finalContent :=
    match traj.bind (fun t => t.final_result) with
    | some v => v
    | none => .str (sanitizeOutput output.trim)
  let toolCalls :=
    match traj with
    | some t => t.toolCalls
    | none => parseToolCalls output
  let trajSuccessFalse :=
    match traj.bind (fun t => t.success) with
    | some (.bool false) => true
    | _ => false
  let success := (code == some 0) && !trajSuccessFalse
  if code == some 0 then
    { success := success, content := finalContent,
      toolCalls := some toolCalls, mode := some "cli" }
  else
    { success := false, content := finalContent,
      error := some (if errorOutput.trim != "" then errorOutput.trim
                     else "Process exited with code " ++ jsCodeString code),
      mode := some "cli" }

/-- Mutable locals of the CLI fallback promise in `executeAgent`:
`output`/`errorOutput` accumulate sanitized chunks, `isResolved` latches the
single resolution, `processAlive` embeds `this.currentProcess !== null`,
`killed` records that a `SIGTERM` was sent. -/
structure CliExecState where
  output : String := ""
  errorOutput : String := ""
  isResolved : Bool := false
  processAlive : Bool := true
  killed : Bool := false
deriving Repr

/-- The callbacks that can fire during a CLI run.  `inactivityTimeout`
models the inactivity timer expiring (no stdout/stderr chunk for `timeout`
ms, since every chunk handler calls `refreshTimeout`); `overallTimeout` the
total-duration timer; `closed` the process `close` event (with the trace
file as parsed at that moment); `procError` the process `error` event. -/
inductive CliEvent where
  | stdoutData (raw : String)
  | stderrData (raw : String)
  | inactivityTimeout
  | overallTimeout
  | closed (code : Option Int) (traj : Option TraceRecord)
  | procError (msg : String)

/-- One callback of the CLI run, returning the updated locals and the value
`resolve` was called with, if any.  Every resolution path goes through the
`isResolved` latch, so the promise settles at most once. -/
def cliStep (s : CliExecState) (e : CliEvent) : CliExecState × Option TraeAgentResponse :=
  match e with
  | .stdoutData raw =>
      ({ s with output := s.output ++ sanitizeOutput raw }, none)
  | .stderrData raw =>
      ({ s with errorOutput := s.errorOutput ++ sanitizeOutput raw }, none)
  | .inactivityTimeout =>
      if !s.isResolved && s.processAlive then
        ({ s with isResolved := true, killed := true },
         some { success := false, content := .str (sanitizeOutput s.output),
                error := some "Trae-agent execution timed out" })
      else (s, none)
  | .overallTimeout =>
      if !s.isResolved && s.processAlive then
        ({ s with isResolved := true, killed := true },
         some { success := false, content := .str (sanitizeOutput s.output),
                error := some "Trae-agent execution reached max total duration" })
      else (s, none)
  | .closed code traj =>
      if !s.isResolved then
        ({ s with processAlive := false, isResolved := true },
         some (closeHandler code traj s.output s.errorOutput))
      else ({ s with processAlive := false }, none)
  | .procError msg =>
      if !s.isResolved then
        ({ s with processAlive := false, isResolved := true },
         some { success := false, content := .str (sanitizeOutput s.output),
                error := some ("Process error: " ++ msg), mode := some "cli" })
      else ({ s with processAlive := false }, none)

/-- The locals after a sequence of callbacks, starting from the state right
after `spawn`. -/
def cliRun (events : List CliEvent) : CliExecState :=
  events.foldl (fun s e => (cliStep s e).1) {}

/-- Output/error chunks (the events that only accumulate text and refresh
the inactivity timer). -/
def isDataEvent : CliEvent → Bool
  | .stdoutData _ => true
  | .stderrData _ => true
  | _ => false

/-- Spawn/connection side effects of one `executeAgent` run. -/
structure ExecEffects where
  mcpConnectAttempts : Nat := 0
  cliSpawns : Nat := 0
deriving Repr, DecidableEq

/-- Control-flow skeleton of `TraeAgentService.executeAgent`: the
availability guard and the working-directory guard return early, before the
MCP connection attempt and before any CLI spawn; `rest` abstracts the
MCP-then-CLI body (the only place connections are opened and processes
spawned).  The working-directory test is the JS truthiness check
`!options.workingDirectory`, so the empty string also fails it. -/
def executeAgent (isAvailable : Bool) (workingDirectory : Option String)
    (rest : String → TraeAgentResponse × ExecEffects) :
    TraeAgentResponse × ExecEffects :=
  if !isAvailable then
    ({ success := false, content := .str "",
       error := some "Trae-agent is not available. Please ensure it is properly installed." },
     {})
  else
    match workingDirectory with
    | none =>
        ({ success := false, content := .str "",
           error := some "未检测到项目工作目录。请先打开项目根目录或在界面中选择工作目录后再执行 Agent。" },
         {})
    | some wd =>
        if wd == "" then
          ({ success := false, content := .str "",
             error := some "未检测到项目工作目录。请先打开项目根目录或在界面中选择工作目录后再执行 Agent。" },
           {})
        else rest wd

/-- Control-flow skeleton of `TraeAgentService.executeAgentSession`: the
same two early guards, then the MCP session body (which may itself fall
back to `executeAgent`), abstracted as `rest`. -/
def executeAgentSession (isAvailable : Bool) (workingDirectory : Option String)
    (rest : String → TraeAgentResponse × ExecEffects) :
    TraeAgentResponse × ExecEffects :=
  if !isAvailable then
    ({ success := false, content := .str "",
       error := some "Trae-agent is not available. Please ensure it is properly installed." },
     {})
  else
    match workingDirectory with
    | none =>
        ({ success := false, content := .str "",
           error := some "未检测到项目工作目录。请先打开项目根目录或在界面中选择工作目录后再执行 Agent。" },
         {})
    | some wd =>
        if wd == "" then
          ({ success := false, content := .str "",
             error := some "未检测到项目工作目录。请先打开项目根目录或在界面中选择工作目录后再执行 Agent。" },
           {})
        else rest wd

/-! ## Shared lemmas about the JS `Map` embedding -/

/-- Looking up a key right after `mapSet` of that key yields the new value. -/
theorem mapGet_mapSet_self {α : Type} (m : List (String × α)) (k : String) (v : α) :
    mapGet (mapSet m k v) k = some v := by
  unfold mapGet mapSet
  by_cases h : (m.find? (fun p => p.1 == k)).isSome
  · simp only [h, if_true]
    rw [List.find?_map]
    obtain ⟨a, ha⟩ := Option.isSome_iff_exists.mp h
    have hcomp : ((fun p => p.1 == k) ∘ fun p => if p.1 == k then (k, v) else p)
        = fun p : String × α => p.1 == k := by
      funext p
      by_cases hp : p.1 = k
      · simp [hp]
      · simp [hp]
    rw [hcomp, ha]
    have := List.find?_some ha
    simp only [beq_iff_eq] at this
    simp [this]
  · rw [Option.not_isSome_iff_eq_none] at h
    simp [h, List.find?_append, List.find?]

/-- Looking up a key right after `mapDelete` of that key yields nothing. -/
theorem mapGet_mapDelete_self {α : Type} (m : List (String × α)) (k : String) :
    mapGet (mapDelete m k) k = none := by
  unfold mapGet mapDelete
  have hnone : List.find? (fun p => p.1 == k) (List.filter (fun p => p.1 != k) m) = none := by
    rw [List.find?_eq_none]
    intro p hp
    have hmem := List.mem_filter.mp hp
    simp only [bne_iff_ne, ne_eq] at hmem
    simp only [beq_iff_eq]
    exact hmem.2
  rw [hnone]
  rfl

/-! ## The claims -/

/-- Claim C1: a `turn/completed` notification for turn id `T` that arrives
while no waiter is registered for `T` buffers its result text under `T`;
the first subsequent `sendMessage` whose started turn has id `T` receives
the buffered text and the buffer entry is deleted, so the buffered result
is consumed at most once and a second await for `T` never resolves from
the buffer (it registers a fresh waiter instead). -/
theorem codex_buffered_turn_consumed_once
    (s : CodexState) (notif : JsonValue) (T : String)
    (hid : turnIdOf (some notif) = some T)
    (hnw : s.pendingTurns.contains T = false) :
    ∃ text rawTurn,
      (mapGet (processTurnCompleted s (some notif)).1.bufferedTurnResults T
        = some (text, rawTurn)) ∧
      (awaitTurn (processTurnCompleted s (some notif)).1 T).2 = some text ∧
      (mapGet (awaitTurn (processTurnCompleted s (some notif)).1 T).1.bufferedTurnResults T
        = none) ∧
      ((awaitTurn (awaitTurn (processTurnCompleted s (some notif)).1 T).1 T).2 = none) := by
  unfold processTurnCompleted
  rw [hid]
  simp only [hnw, Bool.false_eq_true, if_false]
  set raw := ((some notif).bind fun n => n.getField "turn") with hraw
  set items := (match raw.bind fun t => t.getField "items" with
    | some (.arr xs) => xs
    | _ => []) with hitems
  refine ⟨turnText items, raw.getD .null, ?_, ?_, ?_, ?_⟩
  · simpa using mapGet_mapSet_self s.bufferedTurnResults T (turnText items, raw.getD .null)
  · unfold awaitTurn
    simp only
    rw [mapGet_mapSet_self]
  · unfold awaitTurn
    simp only
    rw [mapGet_mapSet_self]
    simp only
    exact mapGet_mapDelete_self _ T
  · unfold awaitTurn
    simp only
    rw [mapGet_mapSet_self]
    simp only
    rw [mapGet_mapDelete_self]

/-- Witness for C1 at a concrete notification and fresh state. -/
theorem codex_buffered_turn_consumed_once_witness :
    ∃ text rawTurn,
      (mapGet (processTurnCompleted {} (some (.obj [("turn", .obj [("id", .str "T"),
          ("items", .arr [.obj [("type", .str "agent_message"),
            ("text", .str "hello")]])])]))).1.bufferedTurnResults "T"
        = some (text, rawTurn)) ∧
      (awaitTurn (processTurnCompleted {} (some (.obj [("turn", .obj [("id", .str "T"),
          ("items", .arr [.obj [("type", .str "agent_message"),
            ("text", .str "hello")]])])]))).1 "T").2 = some text ∧
      (mapGet (awaitTurn (processTurnCompleted {} (some (.obj [("turn", .obj [("id", .str "T"),
          ("items", .arr [.obj [("type", .str "agent_message"),
            ("text", .str "hello")]])])]))).1 "T").1.bufferedTurnResults "T"
        = none) ∧
      ((awaitTurn (awaitTurn (processTurnCompleted {} (some (.obj [("turn", .obj [("id", .str "T"),
          ("items", .arr [.obj [("type", .str "agent_message"),
            ("text", .str "hello")]])])]))).1 "T").1 "T").2 = none) :=
  codex_buffered_turn_consumed_once {}
    (.obj [("turn", .obj [("id", .str "T"),
      ("items", .arr [.obj [("type", .str "agent_message"), ("text", .str "hello")]])])])
    "T" rfl rfl

/-- Counterexample to C2 as stated: a response message that carries an id
and a `result` whose value is falsy (here `false`) is dropped by the
dispatch's truthiness test `parsed.result`; the matching pending entry is
neither settled nor removed, and no effect is produced. -/
theorem codex_falsy_result_not_settled :
    handleLine { pendingRequests := [1] }
        (.message (.obj [("id", .num 1), ("result", .bool false)]))
      = ({ pendingRequests := [1] }, {}) := by
  rfl

/-- Claim C2 (amended): for an inbound response message (id present, no
truthy `method` field) whose `result` — or, failing that, `error` — field
is truthy, the client settles the matching pending request exactly once
(resolving with the result or rejecting with the error), removes the id
from the pending map (so redelivering the same message is a no-op), and a
message whose id has no pending entry is a no-op that changes no state.
Messages whose `result` and `error` are both falsy are ignored entirely
(see the counterexample). -/
theorem codex_response_settles_pending_once
    (s : CodexState) (n : Int) (msg : JsonValue)
    (hid : msg.getField "id" = some (.num n))
    (hmethod : JsonValue.truthyOpt (msg.getField "method") = false)
    (hsettling : JsonValue.truthyOpt (msg.getField "result") = true ∨
      (JsonValue.truthyOpt (msg.getField "result") = false ∧
       JsonValue.truthyOpt (msg.getField "error") = true))
    (hnodup : s.pendingRequests.Nodup)
    (hpending : s.pendingRequests.contains n = true) :
    (JsonValue.truthyOpt (msg.getField "result") = true →
      (handleLine s (.message msg)).2.settled
        = some (n, .resolved ((msg.getField "result").getD .null))) ∧
    (JsonValue.truthyOpt (msg.getField "result") = false →
      ∃ e, (handleLine s (.message msg)).2.settled = some (n, .rejected e)) ∧
    (handleLine s (.message msg)).1.pendingRequests = s.pendingRequests.erase n ∧
    handleLine (handleLine s (.message msg)).1 (.message msg)
      = ((handleLine s (.message msg)).1, {}) ∧
    (∀ m : Int, s.pendingRequests.contains m = false →
      ∀ msg2 : JsonValue, msg2.getField "id" = some (.num m) →
        JsonValue.truthyOpt (msg2.getField "method") = false →
        handleLine s (.message msg2) = (s, {})) := by
  have hmem : n ∈ s.pendingRequests := by simpa using hpending
  have hdispatch : ∀ (st : CodexState),
      handleLine st (.message msg)
        = (if JsonValue.truthyOpt (msg.getField "result") then handleResponse st msg
           else handleErrorResponse st msg) := by
    intro st
    unfold handleLine
    simp only [hmethod, hid, Option.isSome_some, Bool.false_and, Bool.true_and,
      Bool.and_false, Bool.and_true, if_false, Bool.not_false]
    rcases hsettling with h | ⟨h1, h2⟩
    · simp [h]
    · simp [h1, h2]
  have herase : (handleLine s (.message msg)).1.pendingRequests
      = s.pendingRequests.erase n := by
    rw [hdispatch]
    by_cases h : JsonValue.truthyOpt (msg.getField "result")
    · simp only [h, if_true]
      unfold handleResponse
      rw [hid]
      simp [hmem]
    · simp only [h, Bool.false_eq_true, if_false]
      unfold handleErrorResponse
      rw [hid]
      simp [hmem]
  have hnotmem : n ∉ s.pendingRequests.erase n := fun hc =>
    ((List.Nodup.mem_erase_iff hnodup).mp hc).1 rfl
  have hnotmem1 : n ∉ (handleLine s (.message msg)).1.pendingRequests := by
    rw [herase]; exact hnotmem
  refine ⟨?_, ?_, herase, ?_, ?_⟩
  · intro h
    rw [hdispatch]
    simp only [h, if_true]
    unfold handleResponse
    rw [hid]
    simp [hmem]
  · intro h
    rw [hdispatch]
    simp only [h, Bool.false_eq_true, if_false]
    unfold handleErrorResponse
    rw [hid]
    simp only [hpending, if_true]
    exact ⟨_, rfl⟩
  · rw [hdispatch ((handleLine s (.message msg)).1)]
    by_cases h : JsonValue.truthyOpt (msg.getField "result")
    · simp only [h, if_true]
      unfold handleResponse
      rw [hid]
      simp [hnotmem1]
    · simp only [h, Bool.false_eq_true, if_false]
      unfold handleErrorResponse
      rw [hid]
      simp [hnotmem1]
  · intro m hm msg2 hid2 hmethod2
    have hmnot : m ∉ s.pendingRequests := by simpa using hm
    unfold handleLine
    simp only [hmethod2, hid2, Option.isSome_some, Bool.false_and, Bool.true_and, if_false,
      Bool.not_false]
    by_cases hr : JsonValue.truthyOpt (msg2.getField "result")
    · simp only [hr, Bool.and_true, if_true]
      unfold handleResponse
      rw [hid2]
      simp [hmnot]
    · simp only [hr, Bool.and_false, if_false]
      by_cases he : JsonValue.truthyOpt (msg2.getField "error")
      · simp only [he, Bool.and_true, if_true]
        unfold handleErrorResponse
        rw [hid2]
        simp [hmnot]
      · simp [he]

/-- Witness for C2 (amended) at a concrete pending map and response. -/
theorem codex_response_settles_pending_once_witness :
    (handleLine { pendingRequests := [1] }
        (.message (.obj [("id", .num 1), ("result", .obj [])]))).2.settled
      = some (1, .resolved (.obj [])) ∧
    (handleLine { pendingRequests := [1] }
        (.message (.obj [("id", .num 1), ("result", .obj [])]))).1.pendingRequests = [] :=
  ⟨(codex_response_settles_pending_once { pendingRequests := [1] } 1
      (.obj [("id", .num 1), ("result", .obj [])])
      rfl rfl (Or.inl rfl) (by simp) rfl).1 rfl,
   (codex_response_settles_pending_once { pendingRequests := [1] } 1
      (.obj [("id", .num 1), ("result", .obj [])])
      rfl rfl (Or.inl rfl) (by simp) rfl).2.2.1⟩

/-- Claim C3: overlapping `ensureReady()` calls on an unready service share
the in-flight `startProcess` promise: any positive number of steps from the
fresh state spawns exactly one process and sends exactly one `initialize`
request, and once the promise is installed every further step is the
identity. -/
theorem codex_ensureReady_spawns_once
    (n : Nat) (hn : 1 ≤ n) :
    ((ensureReadyStep^[n]) {}).spawnCount = 1 ∧
    ((ensureReadyStep^[n]) {}).initRequests = 1 ∧
    (∀ s : CodexInitState, s.initPromise = true → ensureReadyStep s = s) := by
  have hfix : ∀ s : CodexInitState, s.initPromise = true → ensureReadyStep s = s := by
    intro s hs
    unfold ensureReadyStep
    by_cases hd : s.disposed <;> simp [hd, hs]
  have hiter : ∀ m : Nat, (ensureReadyStep^[m + 1]) ({} : CodexInitState)
      = { disposed := false, initPromise := true, spawnCount := 1, initRequests := 1 } := by
    intro m
    rw [Function.iterate_succ_apply]
    have h1 : ensureReadyStep ({} : CodexInitState)
        = { disposed := false, initPromise := true, spawnCount := 1, initRequests := 1 } := rfl
    rw [h1]
    exact Function.iterate_fixed (hfix _ rfl) m
  cases n with
  | zero => omega
  | succ m => exact ⟨by rw [hiter], by rw [hiter], hfix⟩

/-- Witness for C3 at two overlapping calls. -/
theorem codex_ensureReady_spawns_once_witness :
    ((ensureReadyStep^[2]) {}).spawnCount = 1 ∧
    ((ensureReadyStep^[2]) {}).initRequests = 1 :=
  ⟨(codex_ensureReady_spawns_once 2 (by decide)).1,
   (codex_ensureReady_spawns_once 2 (by decide)).2.1⟩

/-- Claim C4: for a CLI-fallback run that ends in a normal process exit,
the returned success flag is true exactly when the exit code is `0` and
the parsed trace does not explicitly set `success` to `false`; in
particular exit code 0 with no explicit failure flag yields success, and a
non-zero (or signal) exit yields failure regardless of trace content. -/
theorem trae_cli_exit_success_iff
    (code : Option Int) (traj : Option TraceRecord) (output errorOutput : String) :
    ((closeHandler code traj output errorOutput).success = true)
      ↔ (code = some 0 ∧ traj.bind (fun t => t.success) ≠ some (.bool false)) := by
  by_cases hc : code = some 0
  · rcases hx : traj.bind (fun t => t.success) with _ | v
    · simp [closeHandler, hc, hx]
    · rcases v with _ | b | k | str | xs | fs <;>
        first
          | (cases b <;> simp [closeHandler, hc, hx])
          | simp [closeHandler, hc, hx]
  · rcases hx : traj.bind (fun t => t.success) with _ | v
    · simp [closeHandler, hc, hx, beq_iff_eq]
    · rcases v with _ | b | k | str | xs | fs <;>
        first
          | (cases b <;> simp [closeHandler, hc, hx, beq_iff_eq])
          | simp [closeHandler, hc, hx, beq_iff_eq]

/-- Output/error chunks preserve the unresolved/alive flags of the CLI run
(they only accumulate text and refresh the inactivity timer). -/
theorem cliStep_data_preserves :
    ∀ (events : List CliEvent), (∀ e ∈ events, isDataEvent e = true) →
    ∀ (s : CliExecState), s.isResolved = false → s.processAlive = true →
      ((events.foldl (fun s e => (cliStep s e).1) s).isResolved = false ∧
       (events.foldl (fun s e => (cliStep s e).1) s).processAlive = true)
  | [], _, s, h1, h2 => ⟨h1, h2⟩
  | e :: es, h, s, h1, h2 => by
    have he := h e (List.mem_cons_self _ _)
    have hes : ∀ x ∈ es, isDataEvent x = true := fun x hx => h x (List.mem_cons_of_mem _ hx)
    cases e with
    | stdoutData raw => exact cliStep_data_preserves es hes _ h1 h2
    | stderrData raw => exact cliStep_data_preserves es hes _ h1 h2
    | inactivityTimeout => simp [isDataEvent] at he
    | overallTimeout => simp [isDataEvent] at he
    | closed code traj => simp [isDataEvent] at he
    | procError msg => simp [isDataEvent] at he

/-- Claim C5: when the inactivity timer fires after only output/error
chunks (no exit, no prior resolution), the run sends SIGTERM and resolves —
rather than rejecting or hanging — with a failure whose content is the
sanitization of the output captured so far (the empty string when no chunk
arrived) and the timeout-typed error message. -/
theorem trae_cli_inactivity_timeout_resolves
    (events : List CliEvent) (hdata : ∀ e ∈ events, isDataEvent e = true) :
    (cliStep (cliRun events) .inactivityTimeout).2
      = some { success := false,
               content := .str (sanitizeOutput (cliRun events).output),
               error := some "Trae-agent execution timed out" } ∧
    (cliStep (cliRun events) .inactivityTimeout).1.killed = true ∧
    (cliStep (cliRun events) .inactivityTimeout).1.isResolved = true ∧
    (events = [] → (cliRun events).output = "") := by
  obtain ⟨h1, h2⟩ := cliStep_data_preserves events hdata {} rfl rfl
  have h1' : (cliRun events).isResolved = false := h1
  have h2' : (cliRun events).processAlive = true := h2
  refine ⟨?_, ?_, ?_, ?_⟩
  · unfold cliStep
    simp [h1', h2']
  · unfold cliStep
    simp [h1', h2']
  · unfold cliStep
    simp [h1', h2']
  · intro he
    subst he
    rfl

/-- Witness for C5 at a single stdout chunk. -/
theorem trae_cli_inactivity_timeout_resolves_witness :
    (cliStep (cliRun [CliEvent.stdoutData "hi"]) .inactivityTimeout).2
      = some { success := false,
               content := .str (sanitizeOutput (cliRun [CliEvent.stdoutData "hi"]).output),
               error := some "Trae-agent execution timed out" } ∧
    (cliStep (cliRun [CliEvent.stdoutData "hi"]) .inactivityTimeout).1.killed = true ∧
    (cliRun [CliEvent.stdoutData "hi"]).output = "hi" :=
  ⟨(trae_cli_inactivity_timeout_resolves [CliEvent.stdoutData "hi"]
      (fun e he => by rw [List.mem_singleton.mp he]; rfl)).1,
   (trae_cli_inactivity_timeout_resolves [CliEvent.stdoutData "hi"]
      (fun e he => by rw [List.mem_singleton.mp he]; rfl)).2.1,
   rfl⟩

/-- Claim C6: `parseTrajectoryFile` never raises — a missing file and a
file whose read or JSON parse throws both yield `null` — and the close
handler then falls back to the sanitized raw stdout as the final content
and (on exit code 0) to the heuristic stdout tool-call parse, instead of
failing the operation. -/
theorem trae_trace_parse_failure_degrades :
    (parseTrajectoryFile none = none) ∧
    (∀ e : String, parseTrajectoryFile (some (.error e)) = none) ∧
    (∀ (code : Option Int) (output errorOutput : String),
      (closeHandler code none output errorOutput).content
        = .str (sanitizeOutput output.trim)) ∧
    (∀ output errorOutput : String,
      (closeHandler (some 0) none output errorOutput).toolCalls
        = some (parseToolCalls output)) := by
  refine ⟨rfl, fun _ => rfl, ?_, ?_⟩
  · intro code output errorOutput
    by_cases hc : code = some 0 <;> simp [closeHandler, hc, beq_iff_eq]
  · intro output errorOutput
    rfl

/-- Claim C7: the documented example trace parses to success, final content
`"done"` and exactly one tool-call entry named `"x"` with result `"ok"`,
correlated via the shared `call_id`; calls and results nested under
`agent_steps` are collected the same way. -/
theorem trae_trajectory_example_parse :
    parseTrajectoryFile (some (.ok (.obj [
        ("success", .bool true),
        ("final_result", .str "done"),
        ("tool_calls", .arr [.obj [("call_id", .str "1"), ("name", .str "x")]]),
        ("tool_results", .arr [.obj [("call_id", .str "1"), ("result", .str "ok")]])])))
      = some { success := some (.bool true),
               final_result := some (.str "done"),
               toolCalls := [{ name := .str "x", parameters := .obj [],
                               result := some (.str "ok") }] } ∧
    parseTrajectoryFile (some (.ok (.obj [
        ("agent_steps", .arr [.obj [
          ("tool_calls", .arr [.obj [("call_id", .str "2"), ("name", .str "y")]]),
          ("tool_results", .arr [.obj [("call_id", .str "2"), ("result", .str "ok2")]])]])])))
      = some { success := none, final_result := none,
               toolCalls := [{ name := .str "y", parameters := .obj [],
                               result := some (.str "ok2") }] } := by
  constructor <;>
    simp [parseTrajectoryFile, collectResults, collectCalls, mapSet, mapGet, asArray,
      JsonValue.getField, JsonValue.jsToString, JsonValue.truthy, List.foldl, List.find?]

/-- Claim C8: a server-initiated request (truthy `method`, an id, truthy
`params`) whose method is not `execCommandApproval` — including
`applyPatchApproval` and any unrecognized method — is answered
automatically with `{id, result: {decision: "approved"}}` and is not
surfaced for user review. -/
theorem codex_non_exec_server_requests_auto_approved
    (s : CodexState) (msg : JsonValue) (m idv : JsonValue)
    (hm : msg.getField "method" = some m)
    (hmt : m.truthy = true)
    (hnm : m ≠ .str "execCommandApproval")
    (hid : msg.getField "id" = some idv)
    (hp : JsonValue.truthyOpt (msg.getField "params") = true) :
    handleLine s (.message msg)
      = (s, { writes := [.obj [("id", idv),
              ("result", .obj [("decision", .str "approved")])]] }) := by
  unfold handleLine
  simp only [hm, hid, hp]
  simp only [JsonValue.truthyOpt, hmt, Option.isSome_some, Bool.true_and,
    Bool.and_true, if_true]
  unfold handleServerRequest
  rw [hm, hid]
  rcases m with _ | b | k | mstr | xs | fs
  · exact absurd hmt (by simp [JsonValue.truthy])
  · simp [respondToExecApproval, decisionString]
  · simp [respondToExecApproval, decisionString]
  · by_cases hs1 : mstr = "execCommandApproval"
    · exact absurd (by rw [hs1]) hnm
    · by_cases hs2 : mstr = "applyPatchApproval"
      · subst hs2
        simp [respondToExecApproval, decisionString]
      · simp [hs1, hs2, respondToExecApproval, decisionString]
  · simp [respondToExecApproval, decisionString]
  · simp [respondToExecApproval, decisionString]

/-- Witness for C8 at a concrete `applyPatchApproval` request. -/
theorem codex_non_exec_server_requests_auto_approved_witness :
    handleLine {} (.message (.obj [("id", .num 7),
        ("method", .str "applyPatchApproval"), ("params", .obj [("x", .num 1)])]))
      = ({}, { writes := [.obj [("id", .num 7),
              ("result", .obj [("decision", .str "approved")])]] }) :=
  codex_non_exec_server_requests_auto_approved {}
    (.obj [("id", .num 7), ("method", .str "applyPatchApproval"),
      ("params", .obj [("x", .num 1)])])
    (.str "applyPatchApproval") (.num 7)
    rfl rfl (by simp) rfl rfl

/-- Claim C9: `executeAgent` and `executeAgentSession` called without a
working directory return a failure `AgentResponse` carrying a
user-actionable error message, with zero MCP connection attempts and zero
CLI spawns — before any agent operation starts (when the service is
unavailable, the availability guard fails first, equally before any
spawn). -/
theorem trae_missing_workdir_fails_before_spawn :
    ∀ (rest restS : String → TraeAgentResponse × ExecEffects) (avail : Bool),
      executeAgent avail none rest
        = (if avail then
            ({ success := false, content := .str "",
               error := some "未检测到项目工作目录。请先打开项目根目录或在界面中选择工作目录后再执行 Agent。" },
             {})
           else
            ({ success := false, content := .str "",
               error := some "Trae-agent is not available. Please ensure it is properly installed." },
             {})) ∧
      executeAgentSession avail none restS
        = (if avail then
            ({ success := false, content := .str "",
               error := some "未检测到项目工作目录。请先打开项目根目录或在界面中选择工作目录后再执行 Agent。" },
             {})
           else
            ({ success := false, content := .str "",
               error := some "Trae-agent is not available. Please ensure it is properly installed." },
             {})) := by
  intro rest restS avail
  cases avail <;> exact ⟨rfl, rfl⟩

/-- With no ANSI intro character in sight, the first pass is the
identity. -/
theorem ansiStripGo_no_intro :
    ∀ (fuel : Nat) (s : List Char), (∀ c ∈ s, isAnsiIntro c = false) →
      ansiStripGo fuel s = s
  | fuel, [], _ => by cases fuel <;> rfl
  | 0, _ :: _, _ => rfl
  | fuel + 1, c :: rest, h => by
    have hc := h c (List.mem_cons_self _ _)
    have ih := ansiStripGo_no_intro fuel rest (fun d hd => h d (List.mem_cons_of_mem _ hd))
    simp [ansiStripGo, hc, ih]

/-- `ansiStrip` is the identity away from ANSI intro characters. -/
theorem ansiStrip_no_intro (s : List Char) (h : ∀ c ∈ s, isAnsiIntro c = false) :
    ansiStrip s = s :=
  ansiStripGo_no_intro s.length s h

/-- With no opening bracket in sight, the tag pass is the identity. -/
theorem tagStripGo_no_bracket :
    ∀ (fuel : Nat) (s : List Char), (∀ c ∈ s, c ≠ '[') →
      tagStripGo fuel s = s
  | fuel, [], _ => by cases fuel <;> rfl
  | 0, _ :: _, _ => rfl
  | fuel + 1, c :: rest, h => by
    have hc : (c == '[') = false := by
      simpa using h c (List.mem_cons_self _ _)
    have ih := tagStripGo_no_bracket fuel rest (fun d hd => h d (List.mem_cons_of_mem _ hd))
    simp [tagStripGo, hc, ih]

/-- `tagStrip` is the identity away from opening brackets. -/
theorem tagStrip_no_bracket (s : List Char) (h : ∀ c ∈ s, c ≠ '[') :
    tagStrip s = s :=
  tagStripGo_no_bracket s.length s h

/-- `boxStrip` is the identity away from box-drawing characters. -/
theorem boxStrip_no_box (s : List Char) (h : ∀ c ∈ s, isBoxDrawing c = false) :
    boxStrip s = s := by
  unfold boxStrip
  rw [List.filter_eq_self]
  intro a ha
  simp [h a ha]

/-- Away from carriage returns, the newline pass is the identity (LFs are
preserved). -/
theorem normalizeNewlines_no_cr :
    ∀ (s : List Char), (∀ c ∈ s, c ≠ '\r') → normalizeNewlines s = s
  | [], _ => rfl
  | c :: rest, h => by
    have hc : c ≠ '\r' := h c (List.mem_cons_self _ _)
    have ih := normalizeNewlines_no_cr rest (fun d hd => h d (List.mem_cons_of_mem _ hd))
    cases rest with
    | nil => simp [normalizeNewlines, hc]
    | cons d rest2 => simp [normalizeNewlines, hc, ih]

/-- Claim C10 (amended): `sanitizeOutput` removes ANSI escape sequences,
bracketed style tags and box-drawing characters, and normalizes CRLF line
endings to LF; a string containing none of these constructs (no ANSI intro
character, no `[`, no box-drawing character and no CR) is returned
verbatim, LF newlines included.  The claim's "newlines verbatim" fails on
CRLF input — see the counterexample. -/
theorem trae_sanitize_removes_and_normalizes
    (s : String)
    (h : ∀ c ∈ s.data, isAnsiIntro c = false ∧ c ≠ '[' ∧ isBoxDrawing c = false ∧ c ≠ '\r') :
    sanitizeOutput s = s ∧
    sanitizeOutput "\x1b[31mred" = "red" ∧
    sanitizeOutput "[bold]hi[/bold]" = "hi" ∧
    sanitizeOutput "a─b" = "ab" ∧
    sanitizeOutput "a\r\nb" = "a\nb" := by
  refine ⟨?_, rfl, rfl, rfl, rfl⟩
  unfold sanitizeOutput
  rw [ansiStrip_no_intro _ (fun c hc => (h c hc).1),
      tagStrip_no_bracket _ (fun c hc => (h c hc).2.1),
      boxStrip_no_box _ (fun c hc => (h c hc).2.2.1),
      normalizeNewlines_no_cr _ (fun c hc => (h c hc).2.2.2)]

/-- Witness for C10 (amended) at a clean string. -/
theorem trae_sanitize_removes_and_normalizes_witness :
    sanitizeOutput "plain text\nok" = "plain text\nok" ∧
    sanitizeOutput "\x1b[31mred" = "red" ∧
    sanitizeOutput "[bold]hi[/bold]" = "hi" ∧
    sanitizeOutput "a─b" = "ab" ∧
    sanitizeOutput "a\r\nb" = "a\nb" :=
  trae_sanitize_removes_and_normalizes "plain text\nok" (by decide)

/-- Counterexample to C10 as stated: CRLF is not preserved verbatim — the
final pass rewrites it to a lone LF. -/
theorem trae_sanitize_not_verbatim_on_crlf :
    sanitizeOutput "a\r\nb" = "a\nb" ∧ ("a\nb" : String) ≠ "a\r\nb" :=
  ⟨rfl, by decide⟩
